import Mathlib

/-!
Verification of the data-store core of the reviewed repository:
the Redux store factory (`src/packages/data/src/redux-store/index.js`)
and the REST entity resolvers (`src/packages/core-data/src/resolvers.js`).

The JavaScript is embedded shallowly: pure fragments become Lean
functions; the resolver scheduling machinery and subscription wrappers
become explicit state machines driven by event traces.  JavaScript
values that matter only through truthiness are modelled by a small
`JVal` type.  Modules of the repository that are not part of the
reviewed sources (metadata reducer/selectors, `getKindEntities`, the
lock manager) are modelled from the specification; each such definition
says so in its doc comment.
-/

namespace Gutenberg

/-- A minimal model of JavaScript values, sufficient for the truthiness
tests the resolvers perform (`if ( record[ key ] )`,
`action.invalidateCache && ...`). -/
inductive JVal where
  | undefinedV : JVal
  | boolean : Bool → JVal
  | num : Int → JVal
  | str : String → JVal
deriving DecidableEq, Repr

/-- JavaScript truthiness for the modelled values: `undefined`, `false`,
`0` and the empty string are falsy, everything else truthy. -/
def JVal.truthy : JVal → Bool
  | .undefinedV => false
  | .boolean b => b
  | .num n => n != 0
  | .str s => s != ""

/-! ## C7: `getEntityRecords.shouldInvalidate`
Source: `src/packages/core-data/src/resolvers.js`, lines 231-238. -/

/-- The fields of a dispatched action that `shouldInvalidate` inspects.
`invalidateCache` is an arbitrary JS value tested for truthiness. -/
structure InvalidateAction where
  type : String
  invalidateCache : JVal
  kind : String
  name : String
deriving DecidableEq, Repr

/-- `getEntityRecords.shouldInvalidate( action, kind, name )`:
`( action.type === 'RECEIVE_ITEMS' || action.type === 'REMOVE_ITEMS' ) &&
action.invalidateCache && kind === action.kind && name === action.name`. -/
def getEntityRecords.shouldInvalidate
    (action : InvalidateAction) (kind name : String) : Bool :=
  (action.type == "RECEIVE_ITEMS" || action.type == "REMOVE_ITEMS")
    && action.invalidateCache.truthy
    && (kind == action.kind)
    && (name == action.name)

/-! ## C8: `canUser` permission recording
Source: `src/packages/core-data/src/resolvers.js`, lines 299-345. -/

/-- The shape of the response headers seen by `canUser`: either a
fetch-style object exposing a `get` accessor (`headers.get( 'allow' )`
may return `null`, modelled as `none`), or a plain preloaded object
whose `Allow` property may be absent (lodash `get` then defaults to the
empty string). -/
inductive RespHeaders where
  | fetchStyle (allow : Option String) : RespHeaders
  | plainObject (allow : Option String) : RespHeaders
deriving DecidableEq, Repr

/-- Whether `needle` occurs contiguously inside `haystack`. -/
def charsInfix (needle : List Char) : List Char → Bool
  | [] => needle.isEmpty
  | c :: rest => needle.isPrefixOf (c :: rest) || charsInfix needle rest

/-- Substring containment, the behaviour of lodash `includes` on a
string haystack (`String.prototype.includes`). -/
def strIncludes (haystack needle : String) : Bool :=
  charsInfix needle.toList haystack.toList

/-- The `methods` table of `canUser`, mapping an action verb to the
HTTP method probed in the `Allow` header. -/
def canUserMethods : String → Option String
  | "create" => some "POST"
  | "read" => some "GET"
  | "update" => some "PUT"
  | "delete" => some "DELETE"
  | _ => none

/-- Extraction of the `Allow` header in `canUser`: a fetch-style
response goes through `headers.get( 'allow' )` (possibly `null`), a
preloaded response through `get( response, [ 'headers', 'Allow' ], '' )`. -/
def allowHeaderOf : RespHeaders → Option String
  | .fetchStyle allow => allow
  | .plainObject allow => some (allow.getD "")

/-- lodash `includes( allowHeader, method )` where `allowHeader` may be
`null`: `includes` on `null` is `false`, on a string it is substring
containment. -/
def allowIncludes (allowHeader : Option String) (method : String) : Bool :=
  match allowHeader with
  | none => false
  | some s => strIncludes s method

/-- The permission `canUser( action, resource, id )` records for a
successful preflight response with the given headers: `none` when the
action verb is invalid (the resolver throws before any request), else
`some isAllowed` with
`isAllowed = includes( allowHeader, method )`. -/
def canUserRecorded (action : String) (headers : RespHeaders) : Option Bool :=
  match canUserMethods action with
  | none => none
  | some method => some (allowIncludes (allowHeaderOf headers) method)

/-! ## C4: facade `subscribe` change detection
Source: `src/packages/data/src/redux-store/index.js`, lines 163-176.

The wrapper closes over `lastState`; on every store notification it
reads the full combined `{ metadata, root }` state, compares it by
reference to `lastState`, updates `lastState`, and invokes the listener
exactly when the references differ.  Reference identity of the state
object is modelled by an object identifier (`Nat`): two states are
reference-equal iff their identifiers coincide. -/

/-- One store notification as seen by the facade's subscribe wrapper:
given the remembered `lastState` and the current full-state object
identifier, returns (listener invocation count for this dispatch, new
`lastState`).  Mirrors lines 167-175 of the source: `hasChanged` is
computed, `lastState` is updated, then the listener runs iff
`hasChanged`. -/
def subscribeNotify (lastState current : Nat) : Nat × Nat :=
  let hasChanged := current != lastState
  (if hasChanged then 1 else 0, current)

/-- Listener invocation counts over a trace of dispatches, each dispatch
described by the full-state object identifier it leaves the store with.
`lastState` starts as the state at subscription time. -/
def subscribeTrace (lastState : Nat) (states : List Nat) : List Nat :=
  match states with
  | [] => []
  | s :: rest =>
      let r := subscribeNotify lastState s
      r.1 :: subscribeTrace r.2 rest

/-- The claim's description of the same trace: exactly one call per
dispatch whose resulting state object is reference-unequal to the state
before it, zero calls otherwise. -/
def claimedSubscribeCalls (prev : Nat) (states : List Nat) : List Nat :=
  match states with
  | [] => []
  | s :: rest => (if s ≠ prev then 1 else 0) :: claimedSubscribeCalls s rest

/-! ## C1/C2: resolver scheduling and deduplication
Source: `src/packages/data/src/redux-store/index.js` —
`createResolversCache` (lines 34-55), `mapResolvers` (lines 332-407)
and `fulfillResolver` (lines 417-427).

The wrapped selector `selectorResolver` runs `fulfillSelector`
synchronously: it skips when the run-cache marks `(selectorName, args)`
as running, when the resolver's `isFulfilled` predicate holds, or when
the metadata already shows a started resolution; otherwise it marks the
run-cache and schedules a `setTimeout` task.  The task, when the event
loop runs it, atomically clears the run-cache entry and dispatches
`START_RESOLUTION`, then awaits the resolver's `fulfill` effect, and
dispatches `FINISH_RESOLUTION` when — and only when — the awaited
effect resolves (there is no `try`/`finally` around the `await`).

The machine below models this for one selector.  Argument tuples are a
type `α` with decidable equality: `EquivalentKeyMap` and the metadata
store key by structural equality of the argument tuple, which decidable
equality of the embedded tuple value captures.  The varying result of
`isFulfilled( state, ...args )` is an oracle bit carried by each call
event. -/

/-- Resolution status of one `(selectorName, args)` entry.
Modelled from the spec: the metadata module is not among the reviewed
sources; §3 describes the entry as `Unstarted → Started → Finished`,
with `hasStartedResolution` true for Started and Finished and
`hasFinishedResolution` true for Finished. -/
inductive ResolutionStatus where
  | unstarted : ResolutionStatus
  | started : ResolutionStatus
  | finished : ResolutionStatus
deriving DecidableEq, Repr

/-- Resolution-metadata actions dispatched by the wrapper.
Modelled from the spec: `startResolution`/`finishResolution` action
creators live in the metadata module outside the reviewed sources;
§6 gives their shapes `{type:'START_RESOLUTION', selectorName, args}`
and `{type:'FINISH_RESOLUTION', selectorName, args}`. -/
inductive ResolutionAction (α : Type) where
  | startResolution : α → ResolutionAction α
  | finishResolution : α → ResolutionAction α
deriving DecidableEq, Repr

/-- State of the resolver-scheduling machinery for one selector, keyed
by argument tuple. `running` is the run-cache, `status` the metadata
entry, `pending` counts scheduled-but-not-yet-run `setTimeout` tasks,
`inFlight` counts `fulfill` invocations that have begun but not yet
terminated, `fulfills` counts `fulfill` invocations ever made, and
`log` records the dispatched resolution actions. -/
structure ResolverMachine (α : Type) where
  running : α → Bool
  status : α → ResolutionStatus
  pending : α → Nat
  inFlight : α → Nat
  fulfills : α → Nat
  log : List (ResolutionAction α)

/-- Events driving the machine: a wrapped-selector call (with the
oracle value of `isFulfilled` at that moment), the event loop running
one scheduled task for a key, and one in-flight `fulfill` terminating
(`ok = true`: its promise resolved; `ok = false`: it raised, so the
rest of the `setTimeout` callback is skipped). -/
inductive ResolverEvent (α : Type) where
  | call : α → Bool → ResolverEvent α
  | runTask : α → ResolverEvent α
  | settle : α → Bool → ResolverEvent α
deriving DecidableEq, Repr

/-- The machine before any call: empty run-cache, all entries
unstarted, nothing scheduled, in flight, fulfilled or logged. -/
def ResolverMachine.init (α : Type) : ResolverMachine α :=
  { running := fun _ => false
    status := fun _ => .unstarted
    pending := fun _ => 0
    inFlight := fun _ => 0
    fulfills := fun _ => 0
    log := [] }

/-- One step of the resolver machinery, mirroring `fulfillSelector` and
its `setTimeout` callback.  A call skips when the run-cache is marked,
`isFulfilled` holds, or resolution has started; otherwise it marks the
run-cache and schedules a task.  A task clears the run-cache,
dispatches start-resolution and invokes `fulfill`.  A settle ends one
in-flight `fulfill`; only a successful one dispatches
finish-resolution. -/
def ResolverMachine.step [DecidableEq α] (m : ResolverMachine α) :
    ResolverEvent α → ResolverMachine α
  | .call a isFulfilledNow =>
      if m.running a || isFulfilledNow then m
      else if m.status a ≠ .unstarted then m
      else
        { m with
          running := Function.update m.running a true
          pending := Function.update m.pending a (m.pending a + 1) }
  | .runTask a =>
      if m.pending a = 0 then m
      else
        { m with
          pending := Function.update m.pending a (m.pending a - 1)
          running := Function.update m.running a false
          status := Function.update m.status a .started
          inFlight := Function.update m.inFlight a (m.inFlight a + 1)
          fulfills := Function.update m.fulfills a (m.fulfills a + 1)
          log := m.log ++ [.startResolution a] }
  | .settle a ok =>
      if m.inFlight a = 0 then m
      else if ok then
        { m with
          inFlight := Function.update m.inFlight a (m.inFlight a - 1)
          status := Function.update m.status a .finished
          log := m.log ++ [.finishResolution a] }
      else
        { m with
          inFlight := Function.update m.inFlight a (m.inFlight a - 1) }

/-- Run the machine over a trace of events. -/
def ResolverMachine.run [DecidableEq α] (m : ResolverMachine α)
    (evs : List (ResolverEvent α)) : ResolverMachine α :=
  evs.foldl ResolverMachine.step m

/-- The inductive invariant of the scheduling machinery at one key:
the run-cache is marked exactly while one task is scheduled, a started
entry has no scheduled task, `fulfill` ran at most once, an unstarted
entry has never run `fulfill`, and an in-flight `fulfill` implies a
started entry. -/
def ResolverInv (a : α) (m : ResolverMachine α) : Prop :=
  m.pending a = (if m.running a then 1 else 0) ∧
    (m.status a ≠ .unstarted → m.running a = false) ∧
    m.fulfills a ≤ 1 ∧
    (m.status a = .unstarted → m.fulfills a = 0) ∧
    (1 ≤ m.inFlight a → m.status a ≠ .unstarted)

/-- A key whose resolution is started with no task scheduled, no
run-cache mark and no `fulfill` in flight: the situation left behind by
a `fulfill` effect that raised.  No event can move such a key's entry
out of Started. -/
def ResolverStuck (a : α) (m : ResolverMachine α) : Prop :=
  m.status a = .started ∧ m.running a = false ∧
    m.pending a = 0 ∧ m.inFlight a = 0

/-! ## C3: `resolveSelect` promises
Source: `src/packages/data/src/redux-store/index.js`,
`getResolveSelectors` (lines 178-213).

For a selector name and argument tuple, the promise executor runs
synchronously: it calls the wrapped selector (`getResult()`, which also
triggers the resolver), then checks `hasFinishedResolution`; if
finished it resolves immediately with that value, otherwise it
subscribes.  Each facade-subscribe notification re-checks
`hasFinishedResolution`; at the first notification where it holds the
listener unsubscribes and resolves with a fresh selector value.  The
trace below carries, per notification, the oracle pair (value of
`hasFinishedResolution`, current selector value).
`hasFinishedResolution` itself is modelled from the spec (the metadata
module is outside the reviewed sources): true exactly on Finished
entries. -/

/-- Observable state of one `resolveSelect.X( args )` promise:
how often the underlying selector was applied, whether the
subscription is live, how often `unsubscribe` ran, how often `resolve`
ran, and the resolved value. -/
structure ResolveSelectState (V : Type) where
  selectorCalls : Nat
  subscribed : Bool
  unsubscribes : Nat
  resolveCalls : Nat
  resolvedWith : Option V
deriving DecidableEq, Repr

/-- The synchronous body of the promise executor: trigger the selector,
short-circuit when resolution has already finished, otherwise
subscribe.  `finished0` and `value0` are `hasFinishedResolution` and
the selector value at call time. -/
def resolveSelectStart (finished0 : Bool) (value0 : V) : ResolveSelectState V :=
  if finished0 then
    { selectorCalls := 1, subscribed := false, unsubscribes := 0
      resolveCalls := 1, resolvedWith := some value0 }
  else
    { selectorCalls := 1, subscribed := true, unsubscribes := 0
      resolveCalls := 0, resolvedWith := none }

/-- One facade-subscribe notification delivered to the promise's
listener, carrying `hasFinishedResolution` and the selector value at
that state change.  The listener unsubscribes before resolving. -/
def resolveSelectNotify (s : ResolveSelectState V) (fin : Bool) (val : V) :
    ResolveSelectState V :=
  if s.subscribed then
    if fin then
      { selectorCalls := s.selectorCalls + 1, subscribed := false
        unsubscribes := s.unsubscribes + 1, resolveCalls := s.resolveCalls + 1
        resolvedWith := some val }
    else s
  else s

/-- Deliver a trace of notifications to the promise's listener. -/
def resolveSelectFold (s : ResolveSelectState V) (trace : List (Bool × V)) :
    ResolveSelectState V :=
  trace.foldl (fun s p => resolveSelectNotify s p.1 p.2) s

/-- The full life of one `resolveSelect` promise: executor then a trace
of state-change notifications. -/
def resolveSelectRun (finished0 : Bool) (value0 : V) (trace : List (Bool × V)) :
    ResolveSelectState V :=
  resolveSelectFold (resolveSelectStart finished0 value0) trace

/-! ## C5/C6/C9/C10: entity resolvers
Source: `src/packages/core-data/src/resolvers.js` —
`getEntityRecord` (lines 66-129), `getEntityRecords` (lines 154-229).

The two resolvers are embedded as functions from an environment (the
entity configurations, the `hasEntityRecords` selector, and the
outcomes of the REST fetch and of the receive dispatch) to the ordered
list of effects they perform plus a flag telling whether the invocation
itself raised.  `getKindEntities` is modelled from the spec: it lives
in the entities module outside the reviewed sources, and §4.3 describes
it only as resolving the entity metadata for `( kind, name )`, so it is
modelled as the effect-free lookup `env.entities`. -/

/-- Modelled from the spec: `DEFAULT_ENTITY_KEY` is exported by the
entities module outside the reviewed sources; §3 gives the default
primary-key field name as `id`. -/
def DEFAULT_ENTITY_KEY : String := "id"

/-- An entity configuration as consulted by the resolvers:
`find( entities, { kind, name } )` plus its `key` and `baseURL`
properties.  `key` is the optional per-entity primary-key field name
(`entity.key` may be absent or empty, in which case
`entity.key || DEFAULT_ENTITY_KEY` falls back). -/
structure EntityConfig where
  kind : String
  name : String
  key : Option String
  baseURL : String
deriving DecidableEq, Repr

/-- `entity.key || DEFAULT_ENTITY_KEY`: the falsy values of the `key`
property (absent or empty string) fall back to the default. -/
def entityKeyOf (e : EntityConfig) : String :=
  match e.key with
  | some s => if s = "" then DEFAULT_ENTITY_KEY else s
  | none => DEFAULT_ENTITY_KEY

/-- A fetched REST record: a JavaScript object modelled as an
association list of own properties. -/
abbrev EntityRecord : Type := List (String × JVal)

/-- `record[ field ]`: the property's value, `undefined` when the
record has no such own property. -/
def recordGet (r : EntityRecord) (field : String) : JVal :=
  match r.find? (fun p => p.1 == field) with
  | some p => p.2
  | none => .undefinedV

/-- The query object handed to the resolvers: its `_fields` property
(`none` when absent), its `include` property, and the remaining
parameters, which the embedded control flow never inspects. -/
structure EQuery where
  fields : Option String
  includeKeys : Option (List String)
  otherParams : List (String × String)
deriving DecidableEq, Repr

/-- Truthiness of `query._fields`. -/
def fieldsTruthy (q : EQuery) : Bool :=
  match q.fields with
  | some s => s != ""
  | none => false

/-- lodash `uniq`, keeping the first occurrence of each element. -/
def uniqKeepFirst (seen : List String) : List String → List String
  | [] => []
  | x :: xs =>
      if x ∈ seen then uniqKeepFirst seen xs
      else x :: uniqKeepFirst (x :: seen) xs

/-- Modelled from the spec: `getNormalizedCommaSeparable` lives in the
utils module outside the reviewed sources; §4.3 says the
`_fields` normalization force-includes the entity's primary-key field,
so the comma-separated list is parsed, the key appended, duplicates
dropped and the result re-joined
(`uniq( [ ...getNormalizedCommaSeparable( query._fields ), entityKey ] ).join()`). -/
def normalizeFields (fields entityKey : String) : String :=
  ",".intercalate (uniqKeepFirst [] (fields.splitOn "," ++ [entityKey]))

/-- The `_fields`-normalization step shared by both resolvers: when
`query._fields` is truthy, replace it with the normalized list that
always includes the entity's primary-key field. -/
def narrowFields (q : EQuery) (e : EntityConfig) : EQuery :=
  if fieldsTruthy q then
    { q with fields := some (normalizeFields (q.fields.getD "") (entityKeyOf e)) }
  else q

/-- `record[ field ] = undefined` for every requested field the record
lacks (`getEntityRecords`, lines 193-203): the query is considered
fulfilled by explicitly materializing missing fields. -/
def fillFields (fields : String) (r : EntityRecord) : EntityRecord :=
  (fields.splitOn ",").foldl
    (fun rec f =>
      if (rec.find? (fun p => p.1 == f)).isSome then rec
      else rec ++ [(f, JVal.undefinedV)])
    r

/-- The effects an entity-resolver invocation performs, in order:
advisory-lock acquisition and release on a path, the REST fetch, the
`receiveEntityRecords` dispatch, and the synthesized
`START_RESOLUTION`/`FINISH_RESOLUTION` dispatches for
`getEntityRecord` with args `[ kind, name, recordKey ]`. -/
inductive EntityEffect where
  | acquireLock : List String → EntityEffect
  | releaseLock : List String → EntityEffect
  | fetch : EntityEffect
  | receive : String → String → EntityEffect
  | startEntityRecordResolution : String → String → JVal → EntityEffect
  | finishEntityRecordResolution : String → String → JVal → EntityEffect
deriving DecidableEq, Repr

/-- The environment of one entity-resolver invocation: the entity
configurations `getKindEntities` resolves to, the
`select.hasEntityRecords` oracle, and the outcomes of the REST fetch
(single record or collection) and of the receive dispatch. -/
structure CoreDataEnv where
  entities : List EntityConfig
  hasEntityRecords : String → String → EQuery → Bool
  fetchRecord : Except Unit EntityRecord
  fetchList : Except Unit (List EntityRecord)
  receiveOk : Bool

/-- The narrowed query `{ ...query, include: [ key ] }` tested against
`hasEntityRecords` before `getEntityRecord` fetches. -/
def narrowedQuery (q : EQuery) (e : EntityConfig) (key : String) : EQuery :=
  { narrowFields q e with includeKeys := some [key] }

/-- `getEntityRecord( kind, name, key, query )`: entity lookup, shared
advisory lock on `[ 'entities', 'data', kind, name, key ]`, `_fields`
narrowing, the `hasEntityRecords` reuse shortcut when a query was
supplied, then fetch and receive inside `try { } catch {} finally
{ release }`; the catch swallows fetch and receive errors.  Returns the
ordered effect list and whether the invocation raised. -/
def getEntityRecordRun (env : CoreDataEnv) (kind name key : String)
    (query : Option EQuery) : List EntityEffect × Bool :=
  match env.entities.find? (fun e => e.kind == kind && e.name == name) with
  | none => ([], false)
  | some e =>
      let lockPath := ["entities", "data", kind, name, key]
      let body : List EntityEffect :=
        match env.fetchRecord with
        | .error _ => [.fetch]
        | .ok _ =>
            if env.receiveOk then [.fetch, .receive kind name] else [.fetch]
      match query with
      | some q =>
          if env.hasEntityRecords kind name (narrowedQuery q e key) then
            ([.acquireLock lockPath, .releaseLock lockPath], false)
          else
            ([.acquireLock lockPath] ++ body ++ [.releaseLock lockPath], false)
      | none =>
          ([.acquireLock lockPath] ++ body ++ [.releaseLock lockPath], false)

/-- The `START_RESOLUTION`/`FINISH_RESOLUTION` pairs `getEntityRecords`
synthesizes after receiving: one pair per fetched record whose
primary-key value is truthy (`if ( record[ key ] )`). -/
def seedEffects (kind name keyField : String) (records : List EntityRecord) :
    List EntityEffect :=
  records.flatMap fun r =>
    if (recordGet r keyField).truthy then
      [.startEntityRecordResolution kind name (recordGet r keyField),
        .finishEntityRecordResolution kind name (recordGet r keyField)]
    else []

/-- `getEntityRecords( kind, name, query )`: entity lookup, shared
advisory lock on `[ 'entities', 'data', kind, name ]`, `_fields`
narrowing, fetch, missing-field materialization, receive, then — when
the query has no truthy `_fields` — the synthesized resolution pairs,
all inside `try { } finally { release }` with no catch, so fetch and
receive errors propagate after the lock is released. -/
def getEntityRecordsRun (env : CoreDataEnv) (kind name : String)
    (query : EQuery) : List EntityEffect × Bool :=
  match env.entities.find? (fun e => e.kind == kind && e.name == name) with
  | none => ([], false)
  | some e =>
      let lockPath := ["entities", "data", kind, name]
      let q1 := narrowFields query e
      match env.fetchList with
      | .error _ => ([.acquireLock lockPath, .fetch, .releaseLock lockPath], true)
      | .ok recs =>
          let records :=
            if fieldsTruthy q1 then recs.map (fillFields (q1.fields.getD ""))
            else recs
          if env.receiveOk then
            let seeds :=
              if fieldsTruthy q1 then []
              else seedEffects kind name (entityKeyOf e) records
            ([.acquireLock lockPath, .fetch, .receive kind name] ++ seeds
                ++ [.releaseLock lockPath], false)
          else
            ([.acquireLock lockPath, .fetch, .releaseLock lockPath], true)

/-- Modelled from the spec: one metadata-reducer step (the reducer is
outside the reviewed sources), folding a
`START_RESOLUTION`/`FINISH_RESOLUTION` dispatch into the resolution
entry of `getEntityRecord` at args `( kind, name, keyval )` —
`Unstarted → Started → Finished` per §3. -/
def replayStep (kind name : String) (keyval : JVal)
    (st : ResolutionStatus) (e : EntityEffect) : ResolutionStatus :=
  match e with
  | .startEntityRecordResolution k n v =>
      if k = kind ∧ n = name ∧ v = keyval then .started else st
  | .finishEntityRecordResolution k n v =>
      if k = kind ∧ n = name ∧ v = keyval then .finished else st
  | _ => st

/-- Fold a dispatched effect list into the resolution entry of
`getEntityRecord` at `( kind, name, keyval )`, starting from a given
status. -/
def replayStatusFrom (st : ResolutionStatus) (log : List EntityEffect)
    (kind name : String) (keyval : JVal) : ResolutionStatus :=
  log.foldl (replayStep kind name keyval) st

/-- The resolution entry of `getEntityRecord` at `( kind, name,
keyval )` after an invocation's dispatched effects, starting
Unstarted. -/
def replayStatus (log : List EntityEffect) (kind name : String)
    (keyval : JVal) : ResolutionStatus :=
  replayStatusFrom .unstarted log kind name keyval

/-- The entity configuration used by the concrete evaluations below:
kind `root`, name `widget`, no explicit `key` property. -/
def widgetEntity : EntityConfig :=
  { kind := "root", name := "widget", key := none, baseURL := "/wp/v2/widgets" }

/-- Environment where the single-record fetch fails and the receive
dispatch would fail too. -/
def c5WitnessEnv : CoreDataEnv :=
  { entities := [widgetEntity]
    hasEntityRecords := fun _ _ _ => false
    fetchRecord := .error ()
    fetchList := .ok []
    receiveOk := false }

/-- Environment whose store already holds records for every narrowed
query. -/
def c9WitnessEnv : CoreDataEnv :=
  { entities := [widgetEntity]
    hasEntityRecords := fun _ _ _ => true
    fetchRecord := .ok [("id", JVal.num 7)]
    fetchList := .ok []
    receiveOk := true }

/-- Environment with no entity configurations at all. -/
def c10WitnessEnv : CoreDataEnv :=
  { entities := []
    hasEntityRecords := fun _ _ _ => false
    fetchRecord := .ok []
    fetchList := .ok []
    receiveOk := true }

/-- Environment whose collection fetch yields one record with primary
key `7`. -/
def c6WitnessEnv : CoreDataEnv :=
  { entities := [widgetEntity]
    hasEntityRecords := fun _ _ _ => false
    fetchRecord := .ok []
    fetchList := .ok [[("id", JVal.num 7)]]
    receiveOk := true }

/-- Environment whose collection fetch yields one record whose primary
key is the falsy value `0`. -/
def c6CexEnv : CoreDataEnv :=
  { entities := [widgetEntity]
    hasEntityRecords := fun _ _ _ => false
    fetchRecord := .ok []
    fetchList := .ok [[("id", JVal.num 0)]]
    receiveOk := true }

/-- The empty query object (no `_fields`, no `include`). -/
def emptyQuery : EQuery :=
  { fields := none, includeKeys := none, otherParams := [] }

/-- A resolver machine for `getEntityRecord` (argument tuples
`( kind, name, recordKey )`) whose every entry is already Finished, as
the seeded resolution pairs leave it. -/
def finishedRecordMachine : ResolverMachine (String × String × JVal) :=
  { running := fun _ => false
    status := fun _ => .finished
    pending := fun _ => 0
    inFlight := fun _ => 0
    fulfills := fun _ => 0
    log := [] }

theorem resolverInv_init (α : Type) (a : α) : ResolverInv a (ResolverMachine.init α) := by
  refine ⟨rfl, ?_, ?_, ?_, ?_⟩ <;> simp [ResolverMachine.init]

theorem update_at_ne [DecidableEq α] (f : α → β) (b a : α) (v : β) (h : b ≠ a) :
    Function.update f b v a = f a :=
  Function.update_noteq (Ne.symm h) v f

theorem resolverInv_step [DecidableEq α] (a : α) (m : ResolverMachine α)
    (hinv : ResolverInv a m) (ev : ResolverEvent α) :
    ResolverInv a (m.step ev) := by
  obtain ⟨h1, h2, h3, h4, h5⟩ := hinv
  cases ev with
  | call b f =>
      simp only [ResolverMachine.step]
      split_ifs with hr hs
      · exact ⟨h1, h2, h3, h4, h5⟩
      · exact ⟨h1, h2, h3, h4, h5⟩
      · rcases eq_or_ne b a with rfl | hb
        · have hst : m.status b = .unstarted := not_not.mp hs
          have hrf : m.running b = false := by
            simp only [Bool.or_eq_true, not_or, Bool.not_eq_true] at hr
            exact hr.1
          refine ⟨?_, ?_, h3, h4, ?_⟩
          · simp [Function.update_same, h1, hrf]
          · intro hcon
            exact absurd hst hcon
          · intro hif
            exact absurd hst (h5 hif)
        · refine ⟨?_, ?_, h3, h4, h5⟩
          · simp only [update_at_ne _ _ _ _ hb]
            exact h1
          · simp only [update_at_ne _ _ _ _ hb]
            exact h2
  | runTask b =>
      simp only [ResolverMachine.step]
      split_ifs with hp
      · exact ⟨h1, h2, h3, h4, h5⟩
      · rcases eq_or_ne b a with rfl | hb
        · have hrun : m.running b = true := by
            by_contra hcon
            simp only [Bool.not_eq_true] at hcon
            rw [hcon, if_neg (by simp)] at h1
            exact hp h1
          have hst : m.status b = .unstarted := by
            by_contra hcon
            rw [h2 hcon, if_neg (by simp)] at h1
            exact hp h1
          have hf0 : m.fulfills b = 0 := h4 hst
          refine ⟨?_, ?_, ?_, ?_, ?_⟩ <;>
            simp [Function.update_same, h1, hrun, hf0]
        · refine ⟨?_, ?_, ?_, ?_, ?_⟩ <;>
            simp only [update_at_ne _ _ _ _ hb] <;>
            first
              | exact h1
              | exact h2
              | exact h3
              | exact h4
              | exact h5
  | settle b ok =>
      simp only [ResolverMachine.step]
      split_ifs with hifz hok
      · exact ⟨h1, h2, h3, h4, h5⟩
      · rcases eq_or_ne b a with rfl | hb
        · have hst : m.status b ≠ .unstarted := h5 (Nat.one_le_iff_ne_zero.mpr hifz)
          refine ⟨h1, fun _ => h2 hst, h3, ?_, ?_⟩
          · intro hcon
            simp [Function.update_same] at hcon
          · intro _
            simp [Function.update_same]
        · refine ⟨h1, ?_, h3, ?_, ?_⟩ <;>
            simp only [update_at_ne _ _ _ _ hb] <;>
            first
              | exact h2
              | exact h4
              | exact h5
      · rcases eq_or_ne b a with rfl | hb
        · have hst : m.status b ≠ .unstarted := h5 (Nat.one_le_iff_ne_zero.mpr hifz)
          exact ⟨h1, h2, h3, h4, fun _ => hst⟩
        · refine ⟨h1, h2, h3, h4, ?_⟩
          simp only [update_at_ne _ _ _ _ hb]
          exact h5

theorem resolverInv_run [DecidableEq α] (a : α) (m : ResolverMachine α)
    (hinv : ResolverInv a m) (evs : List (ResolverEvent α)) :
    ResolverInv a (m.run evs) := by
  induction evs generalizing m with
  | nil => exact hinv
  | cons e rest ih =>
      exact ih _ (resolverInv_step a m hinv e)

theorem resolverStuck_step [DecidableEq α] (a : α) (m : ResolverMachine α)
    (h : ResolverStuck a m) (ev : ResolverEvent α) :
    ResolverStuck a (m.step ev) := by
  obtain ⟨hst, hr, hp, hi⟩ := h
  cases ev with
  | call b f =>
      simp only [ResolverMachine.step]
      split_ifs with hcond hs
      · exact ⟨hst, hr, hp, hi⟩
      · exact ⟨hst, hr, hp, hi⟩
      · rcases eq_or_ne b a with rfl | hb
        · exact absurd (not_not.mp hs) (by simp [hst])
        · refine ⟨hst, ?_, ?_, hi⟩ <;>
            simp only [update_at_ne _ _ _ _ hb]
          · exact hr
          · exact hp
  | runTask b =>
      simp only [ResolverMachine.step]
      split_ifs with hpz
      · exact ⟨hst, hr, hp, hi⟩
      · rcases eq_or_ne b a with rfl | hb
        · exact absurd hp hpz
        · refine ⟨?_, ?_, ?_, ?_⟩ <;>
            simp only [update_at_ne _ _ _ _ hb] <;>
            first
              | exact hst
              | exact hr
              | exact hp
              | exact hi
  | settle b ok =>
      simp only [ResolverMachine.step]
      split_ifs with hifz hok
      · exact ⟨hst, hr, hp, hi⟩
      · rcases eq_or_ne b a with rfl | hb
        · exact absurd hi hifz
        · refine ⟨?_, hr, hp, ?_⟩ <;>
            simp only [update_at_ne _ _ _ _ hb]
          · exact hst
          · exact hi
      · rcases eq_or_ne b a with rfl | hb
        · exact absurd hi hifz
        · refine ⟨hst, hr, hp, ?_⟩
          simp only [update_at_ne _ _ _ _ hb]
          exact hi

theorem resolverStuck_run [DecidableEq α] (a : α) (m : ResolverMachine α)
    (h : ResolverStuck a m) (evs : List (ResolverEvent α)) :
    ResolverStuck a (m.run evs) := by
  induction evs generalizing m with
  | nil => exact h
  | cons e rest ih =>
      exact ih _ (resolverStuck_step a m h e)

theorem resolveSelectFold_unsubscribed (s : ResolveSelectState V)
    (h : s.subscribed = false) (trace : List (Bool × V)) :
    resolveSelectFold s trace = s := by
  induction trace with
  | nil => rfl
  | cons p rest ih =>
      simp only [resolveSelectFold, List.foldl_cons]
      rw [show resolveSelectNotify s p.1 p.2 = s by simp [resolveSelectNotify, h]]
      exact ih

theorem resolveSelectRun_pending (value0 : V) (trace : List (Bool × V)) :
    (resolveSelectRun false value0 trace).resolvedWith
        = ((trace.find? fun p => p.1).map Prod.snd) ∧
      (resolveSelectRun false value0 trace).resolveCalls
        = (if trace.any (fun p => p.1) then 1 else 0) ∧
      (resolveSelectRun false value0 trace).unsubscribes
        = (if trace.any (fun p => p.1) then 1 else 0) ∧
      1 ≤ (resolveSelectRun false value0 trace).selectorCalls := by
  induction trace with
  | nil =>
      exact ⟨rfl, rfl, rfl, Nat.le_refl 1⟩
  | cons p rest ih =>
      obtain ⟨fin, val⟩ := p
      cases fin with
      | true =>
          have h1 : resolveSelectRun false value0 ((true, val) :: rest)
              = resolveSelectFold
                  { selectorCalls := 2, subscribed := false, unsubscribes := 1
                    resolveCalls := 1, resolvedWith := some val } rest := rfl
          rw [h1, resolveSelectFold_unsubscribed _ rfl rest]
          exact ⟨rfl, rfl, rfl, Nat.le_succ 1⟩
      | false =>
          have h1 : resolveSelectRun false value0 ((false, val) :: rest)
              = resolveSelectRun false value0 rest := rfl
          have h2 : ((false, val) :: rest).find? (fun p => p.1)
              = rest.find? (fun p => p.1) := rfl
          have h3 : ((false, val) :: rest).any (fun p => p.1)
              = rest.any (fun p => p.1) := rfl
          rw [h1, h2, h3]
          exact ih

theorem narrowFields_of_falsy (q : EQuery) (e : EntityConfig)
    (h : fieldsTruthy q = false) : narrowFields q e = q := by
  unfold narrowFields
  rw [h]
  rfl

theorem resolver_call_skipped [DecidableEq α] (m : ResolverMachine α) (a : α)
    (f : Bool) (h : m.status a ≠ .unstarted) : m.step (.call a f) = m := by
  simp [ResolverMachine.step, h]

theorem replayStatusFrom_append (st : ResolutionStatus)
    (l1 l2 : List EntityEffect) (kind name : String) (keyval : JVal) :
    replayStatusFrom st (l1 ++ l2) kind name keyval
      = replayStatusFrom (replayStatusFrom st l1 kind name keyval) l2 kind name
          keyval := by
  simp [replayStatusFrom, List.foldl_append]

theorem replay_seedEffects (kind name keyField : String) (keyval : JVal)
    (records : List EntityRecord) (st : ResolutionStatus) :
    replayStatusFrom st (seedEffects kind name keyField records) kind name keyval
      = if records.any (fun r =>
            (recordGet r keyField).truthy && (recordGet r keyField == keyval))
        then .finished else st := by
  induction records generalizing st with
  | nil => simp [seedEffects, replayStatusFrom]
  | cons r rest ih =>
      have hcons : seedEffects kind name keyField (r :: rest)
          = (if (recordGet r keyField).truthy then
              [EntityEffect.startEntityRecordResolution kind name
                  (recordGet r keyField),
                EntityEffect.finishEntityRecordResolution kind name
                  (recordGet r keyField)]
            else []) ++ seedEffects kind name keyField rest := by
        simp [seedEffects]
      rw [hcons, List.any_cons]
      by_cases ht : (recordGet r keyField).truthy = true
      · rw [if_pos ht]
        by_cases hv : recordGet r keyField = keyval
        · have hpair : replayStatusFrom st
              [EntityEffect.startEntityRecordResolution kind name
                  (recordGet r keyField),
                EntityEffect.finishEntityRecordResolution kind name
                  (recordGet r keyField)] kind name keyval = .finished := by
            simp [replayStatusFrom, replayStep, hv]
          rw [replayStatusFrom_append, hpair, ih]
          have ht2 : keyval.truthy = true := by
            rw [← hv]
            exact ht
          have hany : ((recordGet r keyField).truthy
              && (recordGet r keyField == keyval)) = true := by
            rw [hv]
            simp [ht2]
          rw [hany, Bool.true_or, if_pos rfl]
          split <;> rfl
        · have hpair : replayStatusFrom st
              [EntityEffect.startEntityRecordResolution kind name
                  (recordGet r keyField),
                EntityEffect.finishEntityRecordResolution kind name
                  (recordGet r keyField)] kind name keyval = st := by
            simp only [replayStatusFrom, List.foldl_cons, List.foldl_nil,
              replayStep]
            rw [if_neg (by simp [hv]), if_neg (by simp [hv])]
          rw [replayStatusFrom_append, hpair, ih]
          have hany : ((recordGet r keyField).truthy
              && (recordGet r keyField == keyval)) = false := by
            simp [hv]
          rw [hany, Bool.false_or]
      · simp only [Bool.not_eq_true] at ht
        rw [ht, if_neg (by simp), List.nil_append, ih]
        simp only [Bool.false_and, Bool.false_or]

/-- C1: for a selector with a bound resolver, over any interleaving of
wrapped-selector calls, deferred-task runs and fulfill terminations,
the resolver's fulfill effect is invoked at most once per
structurally-equal argument tuple: every call is skipped when the
run-cache marks the key as in flight, when `isFulfilled` holds, or when
the resolution entry already shows a started resolution. -/
theorem c1_fulfill_at_most_once {α : Type} [DecidableEq α]
    (evs : List (ResolverEvent α)) (a : α) :
    ((ResolverMachine.init α).run evs).fulfills a ≤ 1 :=
  (resolverInv_run a _ (resolverInv_init α a) evs).2.2.1

/-- C2 counterexample: the `setTimeout` callback does not guard the
awaited fulfill effect, so when the fulfill effect raises (trace: one
call, its deferred task, then a failed settle) the fulfill effect has
terminated, yet only start-resolution was ever dispatched and the
resolution entry remains Started. -/
theorem c2_counterexample :
    (((ResolverMachine.init Nat).run
        [.call 0 false, .runTask 0, .settle 0 false]).fulfills 0 = 1) ∧
      (((ResolverMachine.init Nat).run
        [.call 0 false, .runTask 0, .settle 0 false]).inFlight 0 = 0) ∧
      (((ResolverMachine.init Nat).run
        [.call 0 false, .runTask 0, .settle 0 false]).log
          = [.startResolution 0]) ∧
      (((ResolverMachine.init Nat).run
        [.call 0 false, .runTask 0, .settle 0 false]).status 0
          = .started) :=
  ⟨by decide, by decide, by decide, by decide⟩

/-- C2 (amended): after a resolver run's deferred tick (entry Started,
run-cache clear, no task scheduled, one fulfill in flight), a fulfill
effect that resolves leads to exactly one finish-resolution dispatch
and a Finished entry, while a fulfill effect that raises dispatches
nothing further and the entry remains Started under every later event
sequence. -/
theorem c2_amended_finish_only_on_success {α : Type} [DecidableEq α]
    (m : ResolverMachine α) (a : α)
    (hst : m.status a = .started) (hr : m.running a = false)
    (hp : m.pending a = 0) (hi : m.inFlight a = 1) :
    (m.step (.settle a true)).status a = .finished ∧
      (m.step (.settle a true)).log = m.log ++ [.finishResolution a] ∧
      (m.step (.settle a false)).log = m.log ∧
      ∀ evs, ((m.step (.settle a false)).run evs).status a = .started := by
  have hifo : m.inFlight a ≠ 0 := by omega
  refine ⟨?_, ?_, ?_, ?_⟩
  · simp [ResolverMachine.step, hifo]
  · simp [ResolverMachine.step, hifo]
  · simp [ResolverMachine.step, hifo]
  · intro evs
    have hstuck : ResolverStuck a (m.step (.settle a false)) := by
      refine ⟨?_, ?_, ?_, ?_⟩ <;>
        simp [ResolverMachine.step, hifo, hst, hr, hp, hi,
          Function.update_same]
    exact (resolverStuck_run a _ hstuck evs).1

/-- Witness for the amended C2 theorem: the machine after one call and
its deferred task, with both a resolving and a raising fulfill
termination. -/
theorem c2_amended_finish_only_on_success_witness :
    (((ResolverMachine.init Nat).run [.call 0 false, .runTask 0]).status 0
        = .started ∧
      ((ResolverMachine.init Nat).run [.call 0 false, .runTask 0]).running 0
        = false ∧
      ((ResolverMachine.init Nat).run [.call 0 false, .runTask 0]).pending 0
        = 0 ∧
      ((ResolverMachine.init Nat).run [.call 0 false, .runTask 0]).inFlight 0
        = 1) ∧
      (((ResolverMachine.init Nat).run [.call 0 false, .runTask 0]).step
          (.settle 0 true)).status 0 = .finished ∧
      ((((ResolverMachine.init Nat).run [.call 0 false, .runTask 0]).step
          (.settle 0 false)).run [.call 0 false, .runTask 0]).status 0
        = .started :=
  ⟨⟨by decide, by decide, by decide, by decide⟩,
    (c2_amended_finish_only_on_success _ 0
      (by decide) (by decide) (by decide) (by decide)).1,
    (c2_amended_finish_only_on_success _ 0
      (by decide) (by decide) (by decide) (by decide)).2.2.2
      [.call 0 false, .runTask 0]⟩

/-- C3: a `resolveSelect.X( args )` promise triggers the underlying
selector first, resolves immediately with the selector's current value
when the resolution entry is already Finished, and otherwise resolves
exactly once — at the first state-change notification where the entry
is Finished — after which it unsubscribes exactly once (and never
resolves or unsubscribes when resolution never finishes). -/
theorem c3_resolveSelect_promise (finished0 : Bool) (value0 : V)
    (trace : List (Bool × V)) :
    1 ≤ (resolveSelectRun finished0 value0 trace).selectorCalls ∧
      (resolveSelectRun finished0 value0 trace).resolveCalls ≤ 1 ∧
      (resolveSelectRun finished0 value0 trace).unsubscribes ≤ 1 ∧
      (finished0 = true →
        resolveSelectRun finished0 value0 trace = resolveSelectStart true value0 ∧
          (resolveSelectRun finished0 value0 trace).resolvedWith = some value0 ∧
          (resolveSelectRun finished0 value0 trace).resolveCalls = 1 ∧
          (resolveSelectRun finished0 value0 trace).unsubscribes = 0) ∧
      (finished0 = false →
        (resolveSelectRun finished0 value0 trace).resolvedWith
            = ((trace.find? fun p => p.1).map Prod.snd) ∧
          (resolveSelectRun finished0 value0 trace).resolveCalls
            = (if trace.any (fun p => p.1) then 1 else 0) ∧
          (resolveSelectRun finished0 value0 trace).unsubscribes
            = (if trace.any (fun p => p.1) then 1 else 0)) := by
  cases finished0 with
  | true =>
      have hrun : resolveSelectRun true value0 trace
          = resolveSelectStart true value0 :=
        resolveSelectFold_unsubscribed _ rfl trace
      rw [hrun]
      refine ⟨Nat.le_refl 1, Nat.le_refl 1, Nat.zero_le 1, ?_, ?_⟩
      · intro _
        exact ⟨rfl, rfl, rfl, rfl⟩
      · intro h
        simp at h
  | false =>
      obtain ⟨h1, h2, h3, h4⟩ := resolveSelectRun_pending value0 trace
      refine ⟨h4, ?_, ?_, ?_, ?_⟩
      · rw [h2]
        split <;> omega
      · rw [h3]
        split <;> omega
      · intro h
        simp at h
      · intro _
        exact ⟨h1, h2, h3⟩

/-- Witness for C3 at a concrete unfinished start and three
notifications, the second being the first Finished one. -/
theorem c3_resolveSelect_promise_witness :
    1 ≤ (resolveSelectRun false (0 : Nat)
          [(false, 5), (true, 7), (true, 9)]).selectorCalls ∧
      (resolveSelectRun false (0 : Nat)
          [(false, 5), (true, 7), (true, 9)]).resolvedWith = some 7 ∧
      (resolveSelectRun false (0 : Nat)
          [(false, 5), (true, 7), (true, 9)]).resolveCalls = 1 ∧
      (resolveSelectRun false (0 : Nat)
          [(false, 5), (true, 7), (true, 9)]).unsubscribes = 1 :=
  ⟨(c3_resolveSelect_promise false 0 [(false, 5), (true, 7), (true, 9)]).1,
    ((c3_resolveSelect_promise false 0
        [(false, 5), (true, 7), (true, 9)]).2.2.2.2 rfl).1.trans (by decide),
    ((c3_resolveSelect_promise false 0
        [(false, 5), (true, 7), (true, 9)]).2.2.2.2 rfl).2.1.trans (by decide),
    ((c3_resolveSelect_promise false 0
        [(false, 5), (true, 7), (true, 9)]).2.2.2.2 rfl).2.2.trans (by decide)⟩

/-- C7: `getEntityRecords.shouldInvalidate( action, kind, name )` is
`true` iff the action type is `RECEIVE_ITEMS` or `REMOVE_ITEMS`, its
`invalidateCache` flag is truthy, and its `kind` and `name` equal the
resolver's. -/
theorem c7_shouldInvalidate_iff (action : InvalidateAction) (kind name : String) :
    getEntityRecords.shouldInvalidate action kind name = true ↔
      (action.type = "RECEIVE_ITEMS" ∨ action.type = "REMOVE_ITEMS") ∧
        action.invalidateCache.truthy = true ∧
        action.kind = kind ∧ action.name = name := by
  unfold getEntityRecords.shouldInvalidate
  simp only [Bool.and_eq_true, Bool.or_eq_true, beq_iff_eq]
  constructor
  · rintro ⟨⟨⟨hty, hc⟩, hk⟩, hn⟩
    exact ⟨hty, hc, hk.symm, hn.symm⟩
  · rintro ⟨hty, hc, hk, hn⟩
    exact ⟨⟨⟨hty, hc⟩, hk.symm⟩, hn.symm⟩

/-- C8: on a successful preflight, the permission `canUser` records is
`true` exactly when the response's `Allow` header (read through either
header shape) contains the HTTP method implied by the action verb; in
particular `canUser( 'create', 'media' )` records `true` for the header
`"GET, POST"` and `false` for the header `"GET"`. -/
theorem c8_canUser_allow (action method : String) (headers : RespHeaders)
    (h : canUserMethods action = some method) :
    canUserRecorded action headers
        = some (allowIncludes (allowHeaderOf headers) method) ∧
      canUserRecorded "create" (.fetchStyle (some "GET, POST")) = some true ∧
      canUserRecorded "create" (.plainObject (some "GET, POST")) = some true ∧
      canUserRecorded "create" (.fetchStyle (some "GET")) = some false ∧
      canUserRecorded "create" (.plainObject (some "GET")) = some false := by
  refine ⟨?_, by decide, by decide, by decide, by decide⟩
  unfold canUserRecorded
  rw [h]

/-- Witness for C8 at a concrete action verb and header. -/
theorem c8_canUser_allow_witness :
    canUserRecorded "read" (.plainObject none)
        = some (allowIncludes (allowHeaderOf (.plainObject none)) "GET") ∧
      canUserRecorded "create" (.fetchStyle (some "GET, POST")) = some true ∧
      canUserRecorded "create" (.plainObject (some "GET, POST")) = some true ∧
      canUserRecorded "create" (.fetchStyle (some "GET")) = some false ∧
      canUserRecorded "create" (.plainObject (some "GET")) = some false :=
  c8_canUser_allow "read" "GET" (.plainObject none) rfl

/-- C4: over any dispatch trace, the facade subscribe wrapper invokes a
listener exactly once per dispatch whose full combined state object is
reference-unequal to the state before it, and zero times per dispatch
that leaves it reference-equal. -/
theorem c4_subscribe_change_detection (init : Nat) (states : List Nat) :
    subscribeTrace init states = claimedSubscribeCalls init states := by
  induction states generalizing init with
  | nil => rfl
  | cons s rest ih =>
      simp only [subscribeTrace, claimedSubscribeCalls, subscribeNotify, ih]
      by_cases h : s = init <;> simp [h]

theorem getEntityRecordRun_parts (env : CoreDataEnv) (kind name key : String)
    (query : Option EQuery) (e : EntityConfig)
    (h : env.entities.find? (fun e => e.kind == kind && e.name == name)
      = some e) :
    ∃ body : List EntityEffect,
      getEntityRecordRun env kind name key query
          = ([EntityEffect.acquireLock ["entities", "data", kind, name, key]]
              ++ body
              ++ [EntityEffect.releaseLock
                    ["entities", "data", kind, name, key]],
            false) ∧
        (body = [] ∨ body = [EntityEffect.fetch]
          ∨ body = [EntityEffect.fetch, EntityEffect.receive kind name]) ∧
        (env.fetchRecord = .error () ∨ env.receiveOk = false →
          body = [] ∨ body = [EntityEffect.fetch]) := by
  cases query with
  | some q =>
      cases hq : env.hasEntityRecords kind name (narrowedQuery q e key) with
      | true =>
          refine ⟨[], ?_, Or.inl rfl, fun _ => Or.inl rfl⟩
          simp [getEntityRecordRun, h, hq]
      | false =>
          cases hfetch : env.fetchRecord with
          | error u =>
              refine ⟨[EntityEffect.fetch], ?_, Or.inr (Or.inl rfl),
                fun _ => Or.inr rfl⟩
              simp [getEntityRecordRun, h, hq, hfetch]
          | ok rec =>
              cases hrecv : env.receiveOk with
              | false =>
                  refine ⟨[EntityEffect.fetch], ?_, Or.inr (Or.inl rfl),
                    fun _ => Or.inr rfl⟩
                  simp [getEntityRecordRun, h, hq, hfetch, hrecv]
              | true =>
                  refine ⟨[EntityEffect.fetch, EntityEffect.receive kind name],
                    ?_, Or.inr (Or.inr rfl), ?_⟩
                  · simp [getEntityRecordRun, h, hq, hfetch, hrecv]
                  · intro hcon
                    rcases hcon with hcon | hcon <;> simp at hcon
  | none =>
      cases hfetch : env.fetchRecord with
      | error u =>
          refine ⟨[EntityEffect.fetch], ?_, Or.inr (Or.inl rfl),
            fun _ => Or.inr rfl⟩
          simp [getEntityRecordRun, h, hfetch]
      | ok rec =>
          cases hrecv : env.receiveOk with
          | false =>
              refine ⟨[EntityEffect.fetch], ?_, Or.inr (Or.inl rfl),
                fun _ => Or.inr rfl⟩
              simp [getEntityRecordRun, h, hfetch, hrecv]
          | true =>
              refine ⟨[EntityEffect.fetch, EntityEffect.receive kind name],
                ?_, Or.inr (Or.inr rfl), ?_⟩
              · simp [getEntityRecordRun, h, hfetch, hrecv]
              · intro hcon
                rcases hcon with hcon | hcon <;> simp at hcon

/-- C5: every `getEntityRecord` invocation that finds its entity
acquires the advisory lock and releases it exactly once, whether the
fetch succeeds, fails, or is skipped by the reuse shortcut; fetch and
receive-dispatch errors are swallowed so the invocation never raises,
and on such an error no receive-action is dispatched, leaving
previously stored state in place. -/
theorem c5_getEntityRecord_lock_and_swallow (env : CoreDataEnv)
    (kind name key : String) (query : Option EQuery) (e : EntityConfig)
    (h : env.entities.find? (fun e => e.kind == kind && e.name == name)
      = some e) :
    (getEntityRecordRun env kind name key query).2 = false ∧
      ((getEntityRecordRun env kind name key query).1.count
          (EntityEffect.releaseLock ["entities", "data", kind, name, key])
        = 1) ∧
      ((env.fetchRecord = .error () ∨ env.receiveOk = false) →
        EntityEffect.receive kind name
          ∉ (getEntityRecordRun env kind name key query).1) := by
  obtain ⟨body, hlog, hshape, himp⟩ :=
    getEntityRecordRun_parts env kind name key query e h
  refine ⟨by rw [hlog], ?_, ?_⟩
  · rw [hlog]
    rcases hshape with rfl | rfl | rfl <;>
      simp [List.count_append, List.count_cons]
  · intro hcon
    rw [hlog]
    rcases himp hcon with rfl | rfl <;> simp

/-- Witness for C5 at a concrete environment whose fetch fails and
whose receive dispatch would fail. -/
theorem c5_getEntityRecord_lock_and_swallow_witness :
    (c5WitnessEnv.entities.find?
        (fun e => e.kind == "root" && e.name == "widget") = some widgetEntity) ∧
      (getEntityRecordRun c5WitnessEnv "root" "widget" "7" none).2 = false ∧
      ((getEntityRecordRun c5WitnessEnv "root" "widget" "7" none).1.count
          (EntityEffect.releaseLock ["entities", "data", "root", "widget", "7"])
        = 1) ∧
      EntityEffect.receive "root" "widget"
        ∉ (getEntityRecordRun c5WitnessEnv "root" "widget" "7" none).1 :=
  ⟨by decide,
    (c5_getEntityRecord_lock_and_swallow c5WitnessEnv "root" "widget" "7" none
      widgetEntity (by decide)).1,
    (c5_getEntityRecord_lock_and_swallow c5WitnessEnv "root" "widget" "7" none
      widgetEntity (by decide)).2.1,
    (c5_getEntityRecord_lock_and_swallow c5WitnessEnv "root" "widget" "7" none
      widgetEntity (by decide)).2.2 (Or.inl rfl)⟩

/-- C9: when a query is supplied to `getEntityRecord` and the store
already holds records for the equivalent narrowed query
(`{ ...query, include: [ key ] }`, as reported by `hasEntityRecords`),
the resolver performs no network fetch and dispatches no
receive-action — it only acquires and releases the lock. -/
theorem c9_getEntityRecord_reuse (env : CoreDataEnv) (kind name key : String)
    (q : EQuery) (e : EntityConfig)
    (h : env.entities.find? (fun e => e.kind == kind && e.name == name)
      = some e)
    (hq : env.hasEntityRecords kind name (narrowedQuery q e key) = true) :
    EntityEffect.fetch ∉ (getEntityRecordRun env kind name key (some q)).1 ∧
      EntityEffect.receive kind name
          ∉ (getEntityRecordRun env kind name key (some q)).1 ∧
      (getEntityRecordRun env kind name key (some q)).1
        = [EntityEffect.acquireLock ["entities", "data", kind, name, key],
            EntityEffect.releaseLock ["entities", "data", kind, name, key]] := by
  have hlog : getEntityRecordRun env kind name key (some q)
      = ([EntityEffect.acquireLock ["entities", "data", kind, name, key],
          EntityEffect.releaseLock ["entities", "data", kind, name, key]],
        false) := by
    simp [getEntityRecordRun, h, hq]
  refine ⟨?_, ?_, ?_⟩ <;> rw [hlog] <;> simp

/-- Witness for C9 at a concrete environment whose store already holds
the narrowed query's records. -/
theorem c9_getEntityRecord_reuse_witness :
    (c9WitnessEnv.entities.find?
        (fun e => e.kind == "root" && e.name == "widget") = some widgetEntity) ∧
      (c9WitnessEnv.hasEntityRecords "root" "widget"
        (narrowedQuery emptyQuery widgetEntity "7") = true) ∧
      EntityEffect.fetch
        ∉ (getEntityRecordRun c9WitnessEnv "root" "widget" "7"
            (some emptyQuery)).1 ∧
      EntityEffect.receive "root" "widget"
        ∉ (getEntityRecordRun c9WitnessEnv "root" "widget" "7"
            (some emptyQuery)).1 :=
  ⟨by decide, rfl,
    (c9_getEntityRecord_reuse c9WitnessEnv "root" "widget" "7" emptyQuery
      widgetEntity (by decide) rfl).1,
    (c9_getEntityRecord_reuse c9WitnessEnv "root" "widget" "7" emptyQuery
      widgetEntity (by decide) rfl).2.1⟩

/-- C10: when entity-kind resolution yields no configuration matching
`( kind, name )`, both `getEntityRecord` and `getEntityRecords` return
early with an empty effect list — no lock acquisition, no fetch, no
receive-action, and no raise — leaving the store's root state
unchanged. -/
theorem c10_missing_entity_no_effects (env : CoreDataEnv)
    (kind name key : String) (query : Option EQuery) (query2 : EQuery)
    (h : env.entities.find? (fun e => e.kind == kind && e.name == name)
      = none) :
    getEntityRecordRun env kind name key query = ([], false) ∧
      getEntityRecordsRun env kind name query2 = ([], false) := by
  constructor
  · simp [getEntityRecordRun, h]
  · simp [getEntityRecordsRun, h]

/-- Witness for C10 at an environment with no entity configurations. -/
theorem c10_missing_entity_no_effects_witness :
    (c10WitnessEnv.entities.find?
        (fun e => e.kind == "root" && e.name == "widget") = none) ∧
      getEntityRecordRun c10WitnessEnv "root" "widget" "7" none
        = ([], false) ∧
      getEntityRecordsRun c10WitnessEnv "root" "widget" emptyQuery
        = ([], false) :=
  ⟨rfl,
    (c10_missing_entity_no_effects c10WitnessEnv "root" "widget" "7" none
      emptyQuery rfl).1,
    (c10_missing_entity_no_effects c10WitnessEnv "root" "widget" "7" none
      emptyQuery rfl).2⟩

/-- C6 counterexample: a successful `getEntityRecords` run without
field restriction that fetches one record whose primary-key value is
the falsy `0` dispatches no resolution pair at all — the loop guards
each pair with `if ( record[ key ] )`, so not every fetched record's
primary-key value is covered. -/
theorem c6_counterexample :
    (c6CexEnv.fetchList = .ok [[("id", JVal.num 0)]]) ∧
      recordGet [("id", JVal.num 0)] "id" = JVal.num 0 ∧
      (getEntityRecordsRun c6CexEnv "root" "widget" emptyQuery).2 = false ∧
      (getEntityRecordsRun c6CexEnv "root" "widget" emptyQuery).1
        = [EntityEffect.acquireLock ["entities", "data", "root", "widget"],
            EntityEffect.fetch, EntityEffect.receive "root" "widget",
            EntityEffect.releaseLock ["entities", "data", "root", "widget"]] ∧
      EntityEffect.startEntityRecordResolution "root" "widget" (JVal.num 0)
        ∉ (getEntityRecordsRun c6CexEnv "root" "widget" emptyQuery).1 ∧
      EntityEffect.finishEntityRecordResolution "root" "widget" (JVal.num 0)
        ∉ (getEntityRecordsRun c6CexEnv "root" "widget" emptyQuery).1 :=
  ⟨rfl, rfl, rfl, by decide, by decide, by decide⟩

/-- C6 (amended): a successful `getEntityRecords` run whose query has
no field restriction dispatches, after the receive-action, a
`START_RESOLUTION`/`FINISH_RESOLUTION` pair for `getEntityRecord` with
args `[ kind, name, recordKey ]` for every fetched record whose
primary-key value is truthy; replaying the dispatched actions marks
that entry Finished, so a subsequent wrapped `getEntityRecord` call for
such a key schedules no resolver run and hence no second network
fetch. -/
theorem c6_amended_records_seed_resolution (env : CoreDataEnv)
    (kind name : String) (query : EQuery) (e : EntityConfig)
    (records : List EntityRecord) (r : EntityRecord)
    (h : env.entities.find? (fun e => e.kind == kind && e.name == name)
      = some e)
    (hf : env.fetchList = .ok records)
    (hrecv : env.receiveOk = true)
    (hfields : fieldsTruthy query = false)
    (hr : r ∈ records)
    (ht : (recordGet r (entityKeyOf e)).truthy = true) :
    (getEntityRecordsRun env kind name query).2 = false ∧
      EntityEffect.startEntityRecordResolution kind name
          (recordGet r (entityKeyOf e))
        ∈ (getEntityRecordsRun env kind name query).1 ∧
      EntityEffect.finishEntityRecordResolution kind name
          (recordGet r (entityKeyOf e))
        ∈ (getEntityRecordsRun env kind name query).1 ∧
      replayStatus (getEntityRecordsRun env kind name query).1 kind name
          (recordGet r (entityKeyOf e)) = .finished ∧
      (∀ (m : ResolverMachine (String × String × JVal)) (f : Bool),
        m.status (kind, name, recordGet r (entityKeyOf e)) = .finished →
          m.step (.call (kind, name, recordGet r (entityKeyOf e)) f) = m) := by
  have hq1 : narrowFields query e = query :=
    narrowFields_of_falsy query e hfields
  have hlog : getEntityRecordsRun env kind name query
      = ([EntityEffect.acquireLock ["entities", "data", kind, name],
          EntityEffect.fetch, EntityEffect.receive kind name]
          ++ seedEffects kind name (entityKeyOf e) records
          ++ [EntityEffect.releaseLock ["entities", "data", kind, name]],
        false) := by
    simp [getEntityRecordsRun, h, hf, hq1, hfields, hrecv]
  have hlog1 : (getEntityRecordsRun env kind name query).1
      = [EntityEffect.acquireLock ["entities", "data", kind, name],
          EntityEffect.fetch, EntityEffect.receive kind name]
          ++ seedEffects kind name (entityKeyOf e) records
          ++ [EntityEffect.releaseLock ["entities", "data", kind, name]] := by
    rw [hlog]
  have hstart : EntityEffect.startEntityRecordResolution kind name
      (recordGet r (entityKeyOf e))
      ∈ seedEffects kind name (entityKeyOf e) records := by
    unfold seedEffects
    refine List.mem_flatMap.mpr ⟨r, hr, ?_⟩
    rw [if_pos ht]
    simp
  have hfinish : EntityEffect.finishEntityRecordResolution kind name
      (recordGet r (entityKeyOf e))
      ∈ seedEffects kind name (entityKeyOf e) records := by
    unfold seedEffects
    refine List.mem_flatMap.mpr ⟨r, hr, ?_⟩
    rw [if_pos ht]
    simp
  refine ⟨by rw [hlog], ?_, ?_, ?_, ?_⟩
  · rw [hlog1]
    exact List.mem_append.mpr (Or.inl (List.mem_append.mpr (Or.inr hstart)))
  · rw [hlog1]
    exact List.mem_append.mpr (Or.inl (List.mem_append.mpr (Or.inr hfinish)))
  · unfold replayStatus
    rw [hlog1, replayStatusFrom_append, replayStatusFrom_append]
    have hpre : replayStatusFrom .unstarted
        [EntityEffect.acquireLock ["entities", "data", kind, name],
          EntityEffect.fetch, EntityEffect.receive kind name] kind name
        (recordGet r (entityKeyOf e)) = .unstarted := by
      simp [replayStatusFrom, replayStep]
    rw [hpre, replay_seedEffects]
    have hany : (records.any fun x =>
        (recordGet x (entityKeyOf e)).truthy
          && (recordGet x (entityKeyOf e) == recordGet r (entityKeyOf e)))
        = true :=
      List.any_eq_true.mpr ⟨r, hr, by simp [ht]⟩
    rw [hany, if_pos rfl]
    simp [replayStatusFrom, replayStep]
  · intro m f hm
    refine resolver_call_skipped m _ f ?_
    rw [hm]
    simp

/-- Witness for the amended C6 theorem at a concrete environment
fetching one record with truthy primary key `7`. -/
theorem c6_amended_records_seed_resolution_witness :
    (c6WitnessEnv.entities.find?
        (fun e => e.kind == "root" && e.name == "widget") = some widgetEntity) ∧
      (c6WitnessEnv.fetchList = .ok [[("id", JVal.num 7)]]) ∧
      EntityEffect.startEntityRecordResolution "root" "widget" (JVal.num 7)
        ∈ (getEntityRecordsRun c6WitnessEnv "root" "widget" emptyQuery).1 ∧
      replayStatus (getEntityRecordsRun c6WitnessEnv "root" "widget"
          emptyQuery).1 "root" "widget" (JVal.num 7) = .finished ∧
      finishedRecordMachine.step
          (.call ("root", "widget", JVal.num 7) false)
        = finishedRecordMachine :=
  ⟨by decide, rfl,
    (c6_amended_records_seed_resolution c6WitnessEnv "root" "widget"
      emptyQuery widgetEntity [[("id", JVal.num 7)]] [("id", JVal.num 7)]
      (by decide) rfl rfl rfl (by decide) (by decide)).2.1,
    (c6_amended_records_seed_resolution c6WitnessEnv "root" "widget"
      emptyQuery widgetEntity [[("id", JVal.num 7)]] [("id", JVal.num 7)]
      (by decide) rfl rfl rfl (by decide) (by decide)).2.2.2.1,
    (c6_amended_records_seed_resolution c6WitnessEnv "root" "widget"
      emptyQuery widgetEntity [[("id", JVal.num 7)]] [("id", JVal.num 7)]
      (by decide) rfl rfl rfl (by decide) (by decide)).2.2.2.2
      finishedRecordMachine false rfl⟩

end Gutenberg
